import Mathlib

/-!
Verification development for the clipman clipboard-history pipeline
(`src/src-tauri/src/lib.rs`).

The Rust source is shallowly embedded as pure Lean functions:
* strings are Lean `String`s; where character-level reasoning is needed
  (trimming, prefix tests, line counting) we work on `String.data`
  (`List Char`), matching Rust's `str::chars` view of UTF-8 text;
* the SQLite table is modelled as a `List Entry` held in descending
  timestamp order (the order `ORDER BY timestamp DESC` yields): the head
  is the most recently inserted row.  Each insert carries the current
  clock value as an explicit `now : Nat` parameter, standing for
  `Utc::now().to_rfc3339()` (timestamps are nondecreasing in real time,
  so a fresh insert is the new head of the descending order);
* fallible clipboard reads become `Option String` (`none` = `Err`);
* the bounded crossbeam channel is modelled from the spec (see
  `sendMsg`), since the channel implementation itself is a dependency,
  not part of this repository; only its capacity constant 10 appears in
  the source.
-/

namespace Clipman

/-- Rust `str::trim_start`: drop leading whitespace characters.
(Line 187 of lib.rs: `content.trim_start()`.) -/
def rustTrimStart (cs : List Char) : List Char :=
  cs.dropWhile Char.isWhitespace

/-- Rust `str::starts_with`: `p` is a prefix of `cs`. -/
def rustStartsWith (cs p : List Char) : Bool :=
  p.isPrefixOf cs

/-- Rust `str::lines().count()`: lines are separated by a newline
character, and a final trailing newline does not start an extra (empty)
line.  (Line 191 of lib.rs: `content.lines().count()`.) -/
def rustLinesCount (cs : List Char) : Nat :=
  if cs = [] then 0
  else cs.count '\n' + (if cs.getLast? = some '\n' then 0 else 1)

/-- The content-type classifier inlined in `insert_clipboard_entry`
(lib.rs lines 187–195): json if the trimmed content starts with a brace
or bracket, else url on an `http://` / `https://` prefix, else
multiline when there is more than one line, else text. -/
def classify (content : String) : String :=
  if rustStartsWith (rustTrimStart content.data) ['{'] ||
     rustStartsWith (rustTrimStart content.data) ['['] then "json"
  else if rustStartsWith content.data "http://".data ||
          rustStartsWith content.data "https://".data then "url"
  else if rustLinesCount content.data > 1 then "multiline"
  else "text"

/-- A persisted row of the `clipboard_history` table (lib.rs lines
113–119).  `ts` stands for the RFC3339 `timestamp` string, abstracted
to a `Nat` that increases with real time; `id` is not modelled (no
claim mentions it). -/
structure Entry where
  content : String
  content_type : String
  ts : Nat
deriving DecidableEq

/-- Embedding of `insert_clipboard_entry` (lib.rs lines 163–204) acting on the
storage list (held most-recent-first): read the most recently stored
content (`SELECT content … ORDER BY timestamp DESC LIMIT 1` = `head?`);
if it equals the candidate, return with the store unchanged; otherwise
prepend a new row with the classified content type and the current
time. -/
def insert_clipboard_entry (store : List Entry) (content : String) (now : Nat) :
    List Entry :=
  match store.head? with
  | some last =>
      if last.content = content then store
      else { content := content, content_type := classify content, ts := now } :: store
  | none => { content := content, content_type := classify content, ts := now } :: store

/-- Embedding of `get_clipboard_history` (lib.rs lines 206–236): `SELECT … ORDER BY
timestamp DESC LIMIT ?1` over the store (already held in descending
timestamp order) is `take limit`. -/
def get_clipboard_history (store : List Entry) (limit : Nat) : List Entry :=
  store.take limit

/-- Embedding of `get_clipboard_history_entries` (lib.rs lines 310–313): the public
command; an omitted limit defaults to 20 (`limit.unwrap_or(20)`). -/
def get_clipboard_history_entries (store : List Entry) (limit : Option Nat) :
    List Entry :=
  get_clipboard_history store (limit.getD 20)

/-- The dedup-guard body of the clipboard watcher loop (lib.rs lines
448–454) run over a list of successfully read samples, starting from a
given `last_clipboard` value: a sample is forwarded (and stored into
`last`) exactly when it differs from `last`. -/
def dedupGuardRun (last : String) : List String → List String
  | [] => []
  | s :: rest =>
      if last ≠ s then s :: dedupGuardRun s rest
      else dedupGuardRun last rest

/-- The full watcher tick loop (lib.rs lines 447–456) over a list of
poll-tick outcomes: `none` is a failed `clipboard.get_text()` (the tick
is skipped entirely), `some s` a successful read handled by the dedup
guard. -/
def pollerRun (last : String) : List (Option String) → List String
  | [] => []
  | none :: rest => pollerRun last rest
  | some s :: rest =>
      if last ≠ s then s :: pollerRun s rest
      else pollerRun last rest

/-- One drained message of the persistence worker loop (lib.rs lines
461–475), with the outcome of its spawned storage write made explicit:
`ok = true` means the dispatched `insert_clipboard_entry` call
succeeded (it may still dedup-skip), `ok = false` that it failed (the
error is only logged; the store is untouched).  In both cases the
pre-write content is emitted as a `clipboard-update` event and the loop
moves to the next message. -/
def persistenceWorker (store : List Entry) :
    List (String × Bool × Nat) → List Entry × List String
  | [] => (store, [])
  | (msg, ok, now) :: rest =>
      let store2 := if ok then insert_clipboard_entry store msg now else store
      let next := persistenceWorker store2 rest
      (next.1, msg :: next.2)

/-- The capacity of the relay channel, from `bounded::<String>(10)`
(lib.rs line 439). -/
def relayCapacity : Nat := 10

/-- State of the relay channel: the buffered messages, oldest first. -/
structure Channel where
  buffer : List String
deriving DecidableEq

/-- Modelled from the spec: the crossbeam `bounded` channel used as the
relay is a dependency, not repository code; the spec describes it as a
fixed-capacity FIFO whose `send` blocks when full, dropping and
overwriting nothing.  `none` models the producer blocking (the channel
is left untouched); `some` is an accepted submission appended behind
the buffered messages. -/
def sendMsg (ch : Channel) (m : String) : Option Channel :=
  if ch.buffer.length < relayCapacity then some ⟨ch.buffer ++ [m]⟩
  else none

/-- Modelled from the spec: receiving from the relay yields the oldest
buffered message (`none` when empty, the consumer would block). -/
def recvMsg (ch : Channel) : Option (String × Channel) :=
  match ch.buffer with
  | [] => none
  | m :: rest => some (m, ⟨rest⟩)

/-- Submit a sequence of messages in order; `none` as soon as one
submission blocks. -/
def sendAll (ch : Channel) : List String → Option Channel
  | [] => some ch
  | m :: rest =>
      match sendMsg ch m with
      | some ch2 => sendAll ch2 rest
      | none => none

/-- Drain the relay completely, collecting messages in receive order. -/
def drainAll (ch : Channel) : List String :=
  ch.buffer

/-- The atomic steps of one watcher tick after a successful clipboard
read (lib.rs lines 449–454), in program order.  The `MutexGuard` on
`last_clipboard` is taken by `lock()` and dropped at the end of the
enclosing block — after `tx.send` on the change path. -/
inductive WatcherEv where
  | lockAcquire
  | compare
  | store
  | relaySend
  | lockRelease
deriving DecidableEq

/-- Event trace of one successful watcher tick (lib.rs lines 449–454):
acquire the lock, compare; on a change, store the new value and submit
to the relay; the guard is released at the end of the block. -/
def watcherTickEvents (last current : String) : List WatcherEv :=
  [WatcherEv.lockAcquire, WatcherEv.compare] ++
    (if last ≠ current then [WatcherEv.store, WatcherEv.relaySend] else []) ++
    [WatcherEv.lockRelease]

/-- The events that happen while the `last_clipboard` lock is held:
strictly between `lockAcquire` and `lockRelease`. -/
def criticalSection (evs : List WatcherEv) : List WatcherEv :=
  ((evs.dropWhile (fun e => e ≠ WatcherEv.lockAcquire)).drop 1).takeWhile
    (fun e => e ≠ WatcherEv.lockRelease)

/-- Invariant 2 of the spec: no two entries adjacent in the store's
descending-timestamp order have identical content. -/
def adjacentDistinct (store : List Entry) : Prop :=
  List.Chain' (fun a b : Entry => a.content ≠ b.content) store



/-- Helper: `destutter'` with pivot `a` is `a` followed by the dedup
guard run started from last-seen value `a`. -/
theorem destutter_eq_dedupGuardRun (rest : List String) :
    ∀ a : String, List.destutter' (fun x y : String => x ≠ y) a rest =
      a :: dedupGuardRun a rest := by
  induction rest with
  | nil => intro a; simp [List.destutter', dedupGuardRun]
  | cons b l ih =>
      intro a
      by_cases h : a ≠ b
      · simp [List.destutter', dedupGuardRun, h, ih]
      · simp [List.destutter', dedupGuardRun, h, ih]

/-- C1 (amended): provided the first successfully read sample differs
from the initial LastSeenState content (the empty string), the
sequence of changes the dedup guard forwards to the relay equals the
heads of the maximal runs of identical consecutive samples
(`List.destutter (≠)`). -/
theorem dedup_changes_eq_run_heads (samples : List String)
    (h : samples.head? ≠ some "") :
    dedupGuardRun "" samples =
      List.destutter (fun a b : String => a ≠ b) samples := by
  cases samples with
  | nil => rfl
  | cons s rest =>
      have hs : s ≠ "" := by
        intro he; exact h (by simp [he])
      have hne : ("" : String) ≠ s := fun he => hs he.symm
      simp [dedupGuardRun, hne, List.destutter, destutter_eq_dedupGuardRun]

/-- C1 (counterexample): with LastSeenState initialized to the empty
string, the sample sequence `[""]` is forwarded as no change at all,
while its maximal-run heads are `[""]`. -/
theorem dedup_changes_eq_run_heads_counterexample :
    ¬ (dedupGuardRun "" [""] =
        List.destutter (fun a b : String => a ≠ b) [""]) := by
  decide

/-- C1 witness. -/
theorem dedup_changes_eq_run_heads_witness :
    (["a", "a", "a", "b", "b", "a"].head? ≠ some "") ∧
      dedupGuardRun "" ["a", "a", "a", "b", "b", "a"] =
        List.destutter (fun a b : String => a ≠ b)
          ["a", "a", "a", "b", "b", "a"] :=
  ⟨by decide, dedup_changes_eq_run_heads _ (by decide)⟩

/-- C7: a failed clipboard read leaves the poller's state and output
untouched, and in general the watcher loop behaves exactly as the
dedup guard run over only the successful reads: read failures are
skipped silently, never surface, and never end the run. -/
theorem poller_skips_failed_reads :
    (∀ (last : String) (ticks : List (Option String)),
        pollerRun last (none :: ticks) = pollerRun last ticks) ∧
    (∀ (last : String) (ticks : List (Option String)),
        pollerRun last ticks = dedupGuardRun last (ticks.filterMap id)) := by
  constructor
  · intro last ticks; rfl
  · intro last ticks
    induction ticks generalizing last with
    | nil => rfl
    | cons t rest ih =>
        cases t with
        | none => simp [pollerRun, List.filterMap_cons, ih]
        | some s =>
            by_cases h : last ≠ s
            · simp [pollerRun, dedupGuardRun, List.filterMap_cons, h, ih]
            · simp [pollerRun, dedupGuardRun, List.filterMap_cons, h, ih]

/-- Helper: the first change the dedup guard forwards always differs
from the last-seen value it started from. -/
theorem dedupGuardRun_head_ne (samples : List String) :
    ∀ (last x : String), (dedupGuardRun last samples).head? = some x →
      x ≠ last := by
  induction samples with
  | nil => intro last x hx; simp [dedupGuardRun] at hx
  | cons s rest ih =>
      intro last x hx
      by_cases h : last ≠ s
      · simp [dedupGuardRun, h] at hx
        intro he; exact h ((hx.trans he).symm)
      · simp [dedupGuardRun, h] at hx
        exact ih last x hx

/-- C10: because `last_clipboard` starts as the empty string, an
empty-string sample read while the last-seen content is empty is never
treated as a change (nothing is forwarded to the relay, hence nothing
reaches storage or the notifier), and the first change the pipeline
ever forwards is necessarily non-empty. -/
theorem empty_initial_sample_never_forwarded :
    (∀ rest : List String,
        dedupGuardRun "" ("" :: rest) = dedupGuardRun "" rest) ∧
    (∀ (samples : List String) (x : String),
        (dedupGuardRun "" samples).head? = some x → x ≠ "") := by
  constructor
  · intro rest; simp [dedupGuardRun]
  · intro samples x hx
    exact dedupGuardRun_head_ne samples "" x hx

/-- C10 witness. -/
theorem empty_initial_sample_never_forwarded_witness :
    (dedupGuardRun "" ["a"]).head? = some "a" ∧ "a" ≠ "" :=
  ⟨by decide, empty_initial_sample_never_forwarded.2 ["a"] "a" (by decide)⟩

/-- C2: the classifier is a total function into the four tags,
evaluated in fixed priority order — the spec's four examples hold, and
any content starting with a brace is json even when it is also
multiline (json has priority). -/
theorem classify_spec :
    classify "  \x7b\"k\":1\x7d" = "json" ∧
    classify "https://x.test" = "url" ∧
    classify "line1\nline2" = "multiline" ∧
    classify "hello" = "text" ∧
    (∀ s : String, rustStartsWith s.data ['{'] = true → classify s = "json") ∧
    (∀ s : String, classify s = "json" ∨ classify s = "url" ∨
      classify s = "multiline" ∨ classify s = "text") := by
  refine ⟨by decide, by decide, by decide, by decide, ?_, ?_⟩
  · intro s h
    rw [rustStartsWith, List.isPrefixOf_iff_prefix] at h
    obtain ⟨t, ht⟩ := h
    have htrim : rustTrimStart s.data = '{' :: t := by
      rw [rustTrimStart, ← ht]
      simp [List.dropWhile_cons]
    have hjson : rustStartsWith (rustTrimStart s.data) ['{'] = true := by
      rw [htrim]
      simp [rustStartsWith, List.isPrefixOf]
    simp [classify, hjson]
  · intro s
    unfold classify
    split_ifs <;> simp

/-- C2 witness: a multiline string starting with a brace classifies as
json. -/
theorem classify_spec_witness :
    rustStartsWith "\x7b\na\x7d".data ['{'] = true ∧
      classify "\x7b\na\x7d" = "json" :=
  ⟨by decide, classify_spec.2.2.2.2.1 _ (by decide)⟩

/-- C3: when the most recently stored content equals the candidate the
insert is a no-op that still succeeds (the store is unchanged);
otherwise exactly one new row is prepended, carrying the candidate and
its classified content type; in particular inserting the same content
twice into an empty store yields exactly one row. -/
theorem insert_at_rest_dedup :
    (∀ (store : List Entry) (content : String) (now : Nat),
        store.head?.map Entry.content = some content →
          insert_clipboard_entry store content now = store) ∧
    (∀ (store : List Entry) (content : String) (now : Nat),
        store.head?.map Entry.content ≠ some content →
          insert_clipboard_entry store content now =
            { content := content, content_type := classify content,
              ts := now } :: store) ∧
    (∀ (content : String) (n1 n2 : Nat),
        (insert_clipboard_entry
          (insert_clipboard_entry [] content n1) content n2).length = 1) := by
  refine ⟨?_, ?_, ?_⟩
  · intro store content now h
    cases store with
    | nil => simp at h
    | cons e rest =>
        simp at h
        simp [insert_clipboard_entry, h]
  · intro store content now h
    cases store with
    | nil => simp [insert_clipboard_entry]
    | cons e rest =>
        simp at h
        simp [insert_clipboard_entry, h]
  · intro content n1 n2
    simp [insert_clipboard_entry]

/-- C3 witness. -/
theorem insert_at_rest_dedup_witness :
    (([] : List Entry).head?.map Entry.content ≠ some "x") ∧
      insert_clipboard_entry [] "x" 1 =
        [{ content := "x", content_type := classify "x", ts := 1 }] ∧
      (insert_clipboard_entry (insert_clipboard_entry [] "x" 1) "x" 2).length
        = 1 :=
  ⟨by simp, insert_at_rest_dedup.2.1 [] "x" 1 (by simp),
    insert_at_rest_dedup.2.2 "x" 1 2⟩

/-- Helper: one sequential insert preserves Invariant 2. -/
theorem insert_preserves_adjacentDistinct (store : List Entry)
    (content : String) (now : Nat) (h : adjacentDistinct store) :
    adjacentDistinct (insert_clipboard_entry store content now) := by
  cases store with
  | nil => simp [insert_clipboard_entry, adjacentDistinct]
  | cons e rest =>
      by_cases he : e.content = content
      · simpa [insert_clipboard_entry, he] using h
      · rw [adjacentDistinct, insert_clipboard_entry]
        simp only [List.head?_cons, he, if_false]
        exact List.Chain'.cons (fun hc => he hc.symm) h

/-- C4: under sequential persistence, any sequence of inserts starting
from a store satisfying Invariant 2 (in particular the empty store)
leaves the store with no two adjacent entries of identical content. -/
theorem sequential_inserts_adjacent_distinct (ops : List (String × Nat)) :
    ∀ store : List Entry, adjacentDistinct store →
      adjacentDistinct
        (ops.foldl (fun s op => insert_clipboard_entry s op.1 op.2) store) := by
  induction ops with
  | nil => intro store h; exact h
  | cons op rest ih =>
      intro store h
      exact ih _ (insert_preserves_adjacentDistinct store op.1 op.2 h)

/-- C4 witness. -/
theorem sequential_inserts_adjacent_distinct_witness :
    adjacentDistinct ([] : List Entry) ∧
      adjacentDistinct
        ([("a", 1), ("a", 2), ("b", 3)].foldl
          (fun s op => insert_clipboard_entry s op.1 op.2) []) :=
  ⟨List.chain'_nil,
    sequential_inserts_adjacent_distinct [("a", 1), ("a", 2), ("b", 3)] []
      List.chain'_nil⟩

/-- C5: the persistence worker emits every drained message as a
clipboard-update event, in order, regardless of the write outcome (a
failed write only skips the store update and the loop continues with
the next message). -/
theorem worker_notifies_regardless :
    (∀ (store : List Entry) (inputs : List (String × Bool × Nat)),
        (persistenceWorker store inputs).2 = inputs.map (fun i => i.1)) ∧
    (∀ (store : List Entry) (msg : String) (now : Nat)
        (rest : List (String × Bool × Nat)),
        persistenceWorker store ((msg, false, now) :: rest) =
          ((persistenceWorker store rest).1,
            msg :: (persistenceWorker store rest).2)) := by
  constructor
  · intro store inputs
    induction inputs generalizing store with
    | nil => rfl
    | cons i rest ih =>
        obtain ⟨msg, ok, now⟩ := i
        simp [persistenceWorker, ih]
  · intro store msg now rest
    rfl

/-- C6 (spec-modelled relay): the relay has capacity 10; any accepted
sequence of submissions is appended behind the buffered messages in
FIFO order with nothing dropped or overwritten; and a submission to a
full relay blocks (the producer gets no slot and the channel is
untouched). -/
theorem relay_bounded_fifo :
    relayCapacity = 10 ∧
    (∀ (ch : Channel) (msgs : List String) (ch' : Channel),
        sendAll ch msgs = some ch' →
          drainAll ch' = drainAll ch ++ msgs) ∧
    (∀ (ch : Channel) (m : String),
        ch.buffer.length = relayCapacity → sendMsg ch m = none) := by
  refine ⟨rfl, ?_, ?_⟩
  · intro ch msgs
    induction msgs generalizing ch with
    | nil =>
        intro ch' h
        simp [sendAll] at h
        simp [h, drainAll]
    | cons m rest ih =>
        intro ch' h
        rw [sendAll] at h
        by_cases hlen : ch.buffer.length < relayCapacity
        · rw [sendMsg, if_pos hlen] at h
          have := ih ⟨ch.buffer ++ [m]⟩ ch' h
          simpa [drainAll] using this
        · rw [sendMsg, if_neg hlen] at h
          exact absurd h (by simp)
  · intro ch m h
    rw [sendMsg, if_neg (by rw [h]; exact lt_irrefl _)]

/-- C6 witness: ten submissions into the empty relay are accepted in
order; the relay is then at capacity and an eleventh submission
blocks. -/
theorem relay_bounded_fifo_witness :
    sendAll ⟨[]⟩ ["a", "b", "c", "d", "e", "f", "g", "h", "i", "j"] =
        some ⟨["a", "b", "c", "d", "e", "f", "g", "h", "i", "j"]⟩ ∧
      drainAll ⟨["a", "b", "c", "d", "e", "f", "g", "h", "i", "j"]⟩ =
        drainAll ⟨[]⟩ ++ ["a", "b", "c", "d", "e", "f", "g", "h", "i", "j"] ∧
      (Channel.mk ["a", "b", "c", "d", "e", "f", "g", "h", "i", "j"]).buffer.length = relayCapacity ∧
      sendMsg ⟨["a", "b", "c", "d", "e", "f", "g", "h", "i", "j"]⟩ "k" =
        none :=
  ⟨by decide,
    relay_bounded_fifo.2.1 ⟨[]⟩
      ["a", "b", "c", "d", "e", "f", "g", "h", "i", "j"] _ (by decide),
    by decide,
    relay_bounded_fifo.2.2 ⟨["a", "b", "c", "d", "e", "f", "g", "h", "i", "j"]⟩
      "k" (by decide)⟩

/-- C8: listing history with limit `n` returns at most `n` entries; if
the store is in descending timestamp order (as `ORDER BY timestamp
DESC` yields) so is the returned prefix; and the public command with
the limit omitted coincides with limit 20. -/
theorem history_limit_and_default :
    (∀ (store : List Entry) (limit : Nat),
        (get_clipboard_history store limit).length ≤ limit) ∧
    (∀ (store : List Entry) (limit : Nat),
        List.Sorted (fun a b : Entry => b.ts ≤ a.ts) store →
          List.Sorted (fun a b : Entry => b.ts ≤ a.ts)
            (get_clipboard_history store limit)) ∧
    (∀ store : List Entry,
        get_clipboard_history_entries store none =
          get_clipboard_history store 20) := by
  refine ⟨?_, ?_, ?_⟩
  · intro store limit
    exact List.length_take_le limit store
  · intro store limit h
    exact List.Pairwise.sublist (List.take_sublist limit store) h
  · intro store
    rfl

/-- C8 witness. -/
theorem history_limit_and_default_witness :
    List.Sorted (fun a b : Entry => b.ts ≤ a.ts)
        [{ content := "b", content_type := "text", ts := 5 },
         { content := "a", content_type := "text", ts := 3 }] ∧
      List.Sorted (fun a b : Entry => b.ts ≤ a.ts)
        (get_clipboard_history
          [{ content := "b", content_type := "text", ts := 5 },
           { content := "a", content_type := "text", ts := 3 }] 1) :=
  ⟨by simp [List.Sorted],
    history_limit_and_default.2.1
      [{ content := "b", content_type := "text", ts := 5 },
       { content := "a", content_type := "text", ts := 3 }] 1
      (by simp [List.Sorted])⟩

/-- C9 (counterexample): on a changed sample (here last-seen "a", new
sample "b") the relay submission happens inside the LastSeenState
critical section — the mutex guard is dropped only at the end of the
block, after `tx.send`. -/
theorem lock_held_across_send_counterexample :
    WatcherEv.relaySend ∈ criticalSection (watcherTickEvents "a" "b") := by
  decide

/-- C9 (amended): the LastSeenState critical section covers the
comparison alone when no change is detected, but the comparison, the
store and the relay submission when a change is detected: the lock is
released only after the submission, so a full relay does extend the
lock-hold time. -/
theorem lock_held_across_send (last current : String) :
    (last ≠ current →
        criticalSection (watcherTickEvents last current) =
          [WatcherEv.compare, WatcherEv.store, WatcherEv.relaySend]) ∧
    (last = current →
        criticalSection (watcherTickEvents last current) =
          [WatcherEv.compare]) := by
  constructor
  · intro h
    simp [watcherTickEvents, criticalSection, h]
  · intro h
    simp [watcherTickEvents, criticalSection, h]

/-- C9 witness. -/
theorem lock_held_across_send_witness :
    (("a" : String) ≠ "b" ∧
        criticalSection (watcherTickEvents "a" "b") =
          [WatcherEv.compare, WatcherEv.store, WatcherEv.relaySend]) ∧
      (("a" : String) = "a" ∧
        criticalSection (watcherTickEvents "a" "a") = [WatcherEv.compare]) :=
  ⟨⟨by decide, (lock_held_across_send "a" "b").1 (by decide)⟩,
    ⟨rfl, (lock_held_across_send "a" "a").2 rfl⟩⟩

end Clipman
